import Mathlib

/-!
Shallow embedding of `create_color_map.py` (class `ColorMapMaker`).

The program samples frames of a video, reduces each sampled frame to its
per-channel mean color, and writes that color as a uniform vertical section
into a pre-sized numpy buffer, optionally rotating the result 90 degrees
clockwise at the end.

Modelling choices:
- a pixel / color is a triple of rationals (numpy float arithmetic is modelled
  by exact rational arithmetic);
- a decoded frame is a rectangular list of rows of pixels;
- the numpy buffer `result_image` of shape (S, W, 3) is a structure holding
  its two spatial dimensions and a total data function (the channel dimension
  is folded into `Color`);
- `cv2.VideoCapture.read` is modelled by indexing into the list of frames the
  source actually delivers: `frames[f]?` is `some img` when the f-th read
  succeeds and `none` when the source reports end of stream;
- the numpy slice assignment on line 74-81 is modelled including numpy's
  slice clamping and broadcast rule: assigning a source of width T into a
  destination slice of width w succeeds iff T = w or T = 1, and raises
  (modelled as `Except.error`) otherwise;
- `exit(1)` on line 43 and the propagation of a numpy broadcast ValueError
  are both modelled as `Except.error` results.
-/

namespace ColorMapMaker

/-- A color: one value per channel, as produced by numpy float arithmetic,
modelled with exact rationals. -/
structure Color where
  r : ℚ
  g : ℚ
  b : ℚ
deriving DecidableEq, Repr

/-- The zero color, the value `np.zeros` fills the buffer with. -/
def Color.zero : Color := ⟨0, 0, 0⟩

/-- Componentwise addition of colors. -/
def Color.add (x y : Color) : Color := ⟨x.r + y.r, x.g + y.g, x.b + y.b⟩

/-- Scaling of a color by a rational. -/
def Color.scale (q : ℚ) (x : Color) : Color := ⟨q * x.r, q * x.g, q * x.b⟩

/-- A decoded frame: a list of rows of pixels (numpy array of shape (h, w, 3),
always rectangular). -/
abbrev Frame := List (List Color)

/-- Componentwise sum of a list of colors. -/
def colorSum (l : List Color) : Color := l.foldr Color.add Color.zero

/-- Sum of all pixels of a frame, channel by channel. -/
def frameSum (fr : Frame) : Color := colorSum (fr.map colorSum)

/-- Number of pixels of a rectangular frame of shape (h, w, 3). -/
def pixelCount (fr : Frame) : ℕ := fr.length * (fr.headD []).length

/-- Line 68: `np.mean(image, axis=(0, 1))` — per-channel arithmetic mean over
both spatial axes. -/
def meanColor (fr : Frame) : Color :=
  Color.scale (1 / (pixelCount fr : ℚ)) (frameSum fr)

/-- The numpy buffer `self.result_image`: spatial shape (height, width) with
three channels folded into `Color`. Positions outside the shape are phantom:
operations never read or write them. -/
structure Buffer where
  height : ℕ
  width : ℕ
  data : ℕ → ℕ → Color

/-- Lines 49-51: `np.zeros([S, W, 3])`. -/
def zerosBuffer (S W : ℕ) : Buffer := ⟨S, W, fun _ _ => Color.zero⟩

/-- The only fatal construction error in the code: `exit(1)` on line 43 when
the reported frame count is zero. -/
inductive InitError where
  | emptySource
deriving DecidableEq, Repr

/-- Lines 40-51 of `__init__`: read the total frame count N; `exit(1)` if it
is zero; otherwise compute `number_of_color_sections = N // sampling_interval`
and allocate `np.zeros([image_size, color_section_size * number_of_color_sections, 3])`.
Arguments: N = frame count, S = image_size, T = color_section_size,
I = sampling_interval. -/
def init (N S T I : ℕ) : Except InitError Buffer :=
  if N = 0 then .error .emptySource
  else .ok (zerosBuffer S (T * (N / I)))

/-- The buffer produced by the slice assignment on lines 74-81 when it
succeeds: every position in rows [0, height) and columns
[min (i*T) width, min (i*T+T) width) is set to `c`, everything else kept. -/
def writeBarFn (buf : Buffer) (T i : ℕ) (c : Color) : Buffer :=
  { buf with
    data := fun row col =>
      if row < buf.height ∧ min (i * T) buf.width ≤ col ∧ col < min (i * T + T) buf.width
      then c else buf.data row col }

/-- Lines 69-81: build `mean_image = np.ones([S, T, 3]) * c` (a uniform block
of shape (height, T, 3)) and assign it into the column slice
`[i*T : i*T + T]` of the buffer. Python slicing clamps the bounds to the
width; numpy then broadcasts the source width T into the destination width w,
which succeeds iff T = w or T = 1 and raises a ValueError otherwise. -/
def assignSection (buf : Buffer) (T i : ℕ) (c : Color) : Except String Buffer :=
  let w := min (i * T + T) buf.width - min (i * T) buf.width
  if T = w ∨ T = 1 then .ok (writeBarFn buf T i c)
  else .error "could not broadcast"

/-- Lines 62-85, the frame loop of `process_image`:
`for processed_frame_n in range(total)`: read a frame (`frames[f]?`); on read
failure break out of the loop; otherwise, when `processed_frame_n % 24 == 0`
(the literal 24 is hardcoded on line 67), write the frame's mean color at
section index `processed_color_section_n` and increment that counter.
`fuel` is the number of loop iterations left (initially N), `ctr` is
`processed_color_section_n`, `f` is `processed_frame_n`. -/
def runLoop (frames : List Frame) (T : ℕ) : ℕ → Buffer → ℕ → ℕ → Except String Buffer
  | 0, buf, _, _ => .ok buf
  | fuel + 1, buf, ctr, f =>
    if f < frames.length then
      if f % 24 = 0 then
        (assignSection buf T ctr (meanColor (frames.getD f []))).bind
          (fun buf2 => runLoop frames T fuel buf2 (ctr + 1) (f + 1))
      else runLoop frames T fuel buf ctr (f + 1)
    else .ok buf

/-- The frame indices the loop samples when every read succeeds: the guard on
line 67 is `processed_frame_n % 24 == 0`, over `range(total_frames)`. -/
def sampledIndices (N : ℕ) : List ℕ :=
  (List.range N).filter (fun f => f % 24 = 0)

/-- Lines 86-87: `cv2.rotate(result_image, cv2.ROTATE_90_CLOCKWISE)` when the
flip flag is set, identity otherwise. A clockwise rotation of an (S, W) image
yields a (W, S) image with `dst[row][col] = src[S - 1 - col][row]`. -/
def finalizeBuf (flip : Bool) (buf : Buffer) : Buffer :=
  if flip then
    ⟨buf.width, buf.height, fun row col => buf.data (buf.height - 1 - col) row⟩
  else buf

/-- Full `process_image` (lines 53-87): run the frame loop over at most N
frames starting with counter 0 and frame index 0, then apply the optional
rotation. A numpy broadcast error propagates out. -/
def process_image (frames : List Frame) (T N : ℕ) (flip : Bool) (buf : Buffer) :
    Except String Buffer :=
  match runLoop frames T N buf 0 0 with
  | .error e => .error e
  | .ok buf2 => .ok (finalizeBuf flip buf2)

/-- Outcome reported by `save_result_to_file`: `cv2.imwrite` returned true
(success logged) or false (error logged). A distinct kind from the
construction-time `InitError`. -/
inductive SaveReport where
  | success
  | writeFailed
deriving DecidableEq, Repr

/-- Lines 89-94, `save_result_to_file`: call `cv2.imwrite` exactly once and
log the outcome. The sink is modelled as an oracle giving the outcome of the
n-th write call; the method consumes one call. It returns the report, the
(untouched) in-memory image, and the new call count. -/
def save_result_to_file (sink : ℕ → Bool) (nCalls : ℕ) (img : Buffer) :
    SaveReport × Buffer × ℕ :=
  (if sink nCalls then .success else .writeFailed, img, nCalls + 1)

/-- Closed-form description of the buffer contents after the frame loop runs
with section size T = 1, starting at frame index `f` with `fuel` iterations
left: position (row, col) holds the mean color of frame `24 * col` when that
frame lies in the loop window, was delivered by the source, and column `col`
exists; otherwise it keeps its previous value. -/
def loopSpecData (frames : List Frame) (buf : Buffer) (f fuel : ℕ) : ℕ → ℕ → Color :=
  fun row col =>
    if row < buf.height ∧ col < buf.width ∧ f ≤ 24 * col ∧ 24 * col < f + fuel ∧
        24 * col < frames.length
    then meanColor (frames.getD (24 * col) [])
    else buf.data row col

/-- A rectangular frame of shape (h, w) whose pixels all have color `c`. -/
def uniformFrame (h w : ℕ) (c : Color) : Frame :=
  List.replicate h (List.replicate w c)

/-- A source delivering `k` one-pixel frames, each of color `c`. -/
def framesConst (k : ℕ) (c : Color) : List Frame :=
  List.replicate k [[c]]

/-- The source of the N = 100 scenario: 100 one-pixel frames, frame 24
uniformly of color (200, 100, 50), every other frame of color (1, 2, 3). -/
def framesScenario : List Frame :=
  (List.range 100).map (fun f => if f = 24 then [[⟨200, 100, 50⟩]] else [[⟨1, 2, 3⟩]])

/-- The slice assignment always succeeds when the section size T is 1: numpy
broadcasts a width-1 source into a destination slice of any width. -/
theorem assignSection_one (buf : Buffer) (i : ℕ) (c : Color) :
    assignSection buf 1 i c = .ok (writeBarFn buf 1 i c) := by
  unfold assignSection
  rw [if_pos (Or.inr rfl)]

/-- Summing n copies of a color scales it by n. -/
theorem colorSum_replicate (n : ℕ) (c : Color) :
    colorSum (List.replicate n c) = Color.scale n c := by
  induction n with
  | zero =>
    show Color.zero = Color.scale 0 c
    simp [Color.zero, Color.scale, Color.mk.injEq]
  | succ n ih =>
    rw [List.replicate_succ]
    show Color.add c (colorSum (List.replicate n c)) = Color.scale (↑(n + 1)) c
    rw [ih]
    simp only [Color.add, Color.scale, Color.mk.injEq]
    refine ⟨?_, ?_, ?_⟩ <;> push_cast <;> ring

/-- The per-channel mean of a uniform nonempty rectangular frame is its
constant color. -/
theorem meanColor_uniform (h w : ℕ) (hh : 1 ≤ h) (hw : 1 ≤ w) (c : Color) :
    meanColor (uniformFrame h w c) = c := by
  have hlen : (uniformFrame h w c).length = h := List.length_replicate h _
  have hmap : (uniformFrame h w c).map colorSum = List.replicate h (Color.scale w c) := by
    unfold uniformFrame
    rw [List.map_replicate, colorSum_replicate]
  have hhead : (uniformFrame h w c).headD [] = List.replicate w c := by
    unfold uniformFrame
    cases h with
    | zero => omega
    | succ n => rw [List.replicate_succ]; rfl
  unfold meanColor pixelCount frameSum
  rw [hmap, colorSum_replicate, hhead, hlen, List.length_replicate]
  have h1 : (h : ℚ) ≠ 0 := Nat.cast_ne_zero.mpr (by omega)
  have h2 : (w : ℚ) ≠ 0 := Nat.cast_ne_zero.mpr (by omega)
  obtain ⟨cr, cg, cb⟩ := c
  simp only [Color.scale, Color.mk.injEq]
  refine ⟨?_, ?_, ?_⟩ <;> (push_cast; field_simp; ring)

/-- Loop step: a successful read of a sampled frame writes the section and
continues with the counter advanced. -/
theorem runLoop_succ_sampled (frames : List Frame) (T fuel : ℕ) (buf buf2 : Buffer)
    (ctr f : ℕ) (hf : f < frames.length) (hmod : f % 24 = 0)
    (hassign : assignSection buf T ctr (meanColor (frames.getD f [])) = .ok buf2) :
    runLoop frames T (fuel + 1) buf ctr f = runLoop frames T fuel buf2 (ctr + 1) (f + 1) := by
  rw [runLoop, if_pos hf, if_pos hmod, hassign]
  rfl

/-- Loop step: a successful read of an unsampled frame just advances. -/
theorem runLoop_succ_skip (frames : List Frame) (T fuel : ℕ) (buf : Buffer)
    (ctr f : ℕ) (hf : f < frames.length) (hmod : ¬f % 24 = 0) :
    runLoop frames T (fuel + 1) buf ctr f = runLoop frames T fuel buf ctr (f + 1) := by
  rw [runLoop, if_pos hf, if_neg hmod]

/-- Loop step: a failed read breaks out of the loop. -/
theorem runLoop_succ_none (frames : List Frame) (T fuel : ℕ) (buf : Buffer)
    (ctr f : ℕ) (hf : ¬f < frames.length) :
    runLoop frames T (fuel + 1) buf ctr f = .ok buf := by
  rw [runLoop, if_neg hf]

/-- Characterization of the frame loop for section size T = 1: started at
frame index f with the counter the loop really has there (its invariant is
ctr = ceil(f / 24)), it never errors and produces exactly the buffer
described by `loopSpecData`. -/
theorem runLoop_one_char (frames : List Frame) :
    ∀ fuel f ctr buf, ctr = (f + 23) / 24 →
      runLoop frames 1 fuel buf ctr f =
        .ok ⟨buf.height, buf.width, loopSpecData frames buf f fuel⟩ := by
  intro fuel
  induction fuel with
  | zero =>
    intro f ctr buf hctr
    show Except.ok buf = _
    have hd : loopSpecData frames buf f 0 = buf.data := by
      funext row col
      unfold loopSpecData
      rw [if_neg]
      rintro ⟨-, -, a, b, -⟩
      omega
    rw [hd]
  | succ fuel ih =>
    intro f ctr buf hctr
    by_cases hf : f < frames.length
    · by_cases hmod : f % 24 = 0
      · rw [runLoop_succ_sampled frames 1 fuel buf
            (writeBarFn buf 1 ctr (meanColor (frames.getD f []))) ctr f hf hmod
            (assignSection_one buf ctr (meanColor (frames.getD f []))),
          ih (f + 1) (ctr + 1) _ (by omega)]
        have h24 : 24 * ctr = f := by omega
        congr 1
        have hd : loopSpecData frames
            (writeBarFn buf 1 ctr (meanColor (frames.getD f []))) (f + 1) fuel =
            loopSpecData frames buf f (fuel + 1) := by
          funext row col
          simp only [loopSpecData, writeBarFn]
          by_cases hcol : 24 * col = f
          · have hM : meanColor (frames.getD (24 * col) []) =
                meanColor (frames.getD f []) := by
              rw [hcol]
            rw [if_neg (by rintro ⟨-, -, a, -, -⟩; omega)]
            by_cases hrow : row < buf.height
            · by_cases hcw : col < buf.width
              · rw [if_pos ⟨hrow, by omega, by omega⟩,
                  if_pos ⟨hrow, hcw, by omega, by omega, by omega⟩, hM]
              · rw [if_neg (by rintro ⟨-, -, b⟩; omega),
                  if_neg (by rintro ⟨-, b, -⟩; omega)]
            · rw [if_neg (by rintro ⟨a, -, -⟩; omega),
                if_neg (by rintro ⟨a, -⟩; omega)]
          · by_cases houter : row < buf.height ∧ col < buf.width ∧ f ≤ 24 * col ∧
                24 * col < f + (fuel + 1) ∧ 24 * col < frames.length
            · rw [if_pos ⟨houter.1, houter.2.1, by omega, by omega, houter.2.2.2.2⟩,
                if_pos houter]
            · rw [if_neg (fun hl =>
                  houter ⟨hl.1, hl.2.1, by omega, by omega, hl.2.2.2.2⟩),
                if_neg (by rintro ⟨-, a, b⟩; omega), if_neg houter]
        rw [hd]
        rfl
      · rw [runLoop_succ_skip frames 1 fuel buf ctr f hf hmod,
          ih (f + 1) ctr _ (by omega)]
        congr 1
        have hd : loopSpecData frames buf (f + 1) fuel = loopSpecData frames buf f (fuel + 1) := by
          funext row col
          unfold loopSpecData
          by_cases houter : row < buf.height ∧ col < buf.width ∧ f ≤ 24 * col ∧
              24 * col < f + (fuel + 1) ∧ 24 * col < frames.length
          · rw [if_pos ⟨houter.1, houter.2.1, by omega, by omega, houter.2.2.2.2⟩,
              if_pos houter]
          · rw [if_neg (fun hl =>
                houter ⟨hl.1, hl.2.1, by omega, by omega, hl.2.2.2.2⟩),
              if_neg houter]
        rw [hd]
    · rw [runLoop_succ_none frames 1 fuel buf ctr f hf]
      have hd : loopSpecData frames buf f (fuel + 1) = buf.data := by
        funext row col
        unfold loopSpecData
        rw [if_neg]
        rintro ⟨-, -, a, -, b⟩
        omega
      rw [hd]

/-- C9: a reported frame count of zero aborts construction with the
empty-source error before any buffer is created, so no partial output can be
produced. -/
theorem init_zero_frames_fails (S T I : ℕ) :
    init 0 S T I = .error .emptySource := rfl

/-- C2 counterexample: with N = 5 frames and sampling interval I = 24 (so
N < I and the bar count is 0), buffer creation succeeds with a zero-width
buffer instead of failing: the code has no dimension validation at all. -/
theorem init_accepts_zero_width :
    init 5 3000 1 24 = .ok (zerosBuffer 3000 0) := rfl

/-- C2 (amended): whenever 1 <= N < I the bar count floor(N/I) is 0 and
buffer creation nevertheless succeeds, returning the zero-width
zero-initialized buffer of shape (S, 0, 3); no InvalidDimensions check
exists in the code. -/
theorem init_zero_width_ok (N S T I : ℕ) (hN : 1 ≤ N) (hNI : N < I) :
    init N S T I = .ok (zerosBuffer S 0) := by
  unfold init
  rw [if_neg (by omega), Nat.div_eq_of_lt hNI, Nat.mul_zero]

/-- Witness for the amended C2 at N = 7, S = 3000, T = 2, I = 24. -/
theorem init_zero_width_ok_witness :
    init 7 3000 2 24 = .ok (zerosBuffer 3000 0) :=
  init_zero_width_ok 7 3000 2 24 (by decide) (by decide)

/-- C5: for every valid configuration (S, T, I >= 1) and reported frame count
N >= 1, the buffer created by the constructor has shape
(S, floor(N/I) * T, 3) and every element of it is zero. -/
theorem init_shape_and_zero (N S T I : ℕ) (hN : 1 ≤ N) (hS : 1 ≤ S) (hT : 1 ≤ T)
    (hI : 1 ≤ I) :
    ∃ buf, init N S T I = .ok buf ∧ buf.height = S ∧ buf.width = N / I * T ∧
      ∀ row col, buf.data row col = Color.zero := by
  refine ⟨zerosBuffer S (T * (N / I)), ?_, rfl, Nat.mul_comm T (N / I), fun _ _ => rfl⟩
  unfold init
  rw [if_neg (by omega)]

/-- Witness for C5 at N = 100, S = 10, T = 1, I = 24. -/
theorem init_shape_and_zero_witness :
    ∃ buf, init 100 10 1 24 = .ok buf ∧ buf.height = 10 ∧ buf.width = 100 / 24 * 1 ∧
      ∀ row col, buf.data row col = Color.zero :=
  init_shape_and_zero 100 10 1 24 (by decide) (by decide) (by decide) (by decide)

/-- C10: saving performs exactly one write call, leaves the in-memory image
untouched, does not retry, and reports failure as a distinct non-exceptional
outcome. -/
theorem save_reports_and_preserves (sink : ℕ → Bool) (n : ℕ) (img : Buffer) :
    (save_result_to_file sink n img).2.1 = img ∧
    (save_result_to_file sink n img).2.2 = n + 1 ∧
    ((save_result_to_file sink n img).1 = .writeFailed ↔ sink n = false) ∧
    SaveReport.writeFailed ≠ SaveReport.success := by
  refine ⟨rfl, rfl, ?_, by simp⟩
  by_cases h : sink n <;> simp [save_result_to_file, h]

/-- C8: finalizing without the flip flag is a no-op on shape and contents;
finalizing with the flip flag swaps the axes (shape (S, W, 3) becomes
(W, S, 3)) and rotates the content 90 degrees clockwise, sending the original
top row to the rightmost column. -/
theorem finalize_flip_rotation (buf : Buffer) (hS : 1 ≤ buf.height) :
    finalizeBuf false buf = buf ∧
    (finalizeBuf true buf).height = buf.width ∧
    (finalizeBuf true buf).width = buf.height ∧
    (∀ row col, col < buf.height →
      (finalizeBuf true buf).data row col = buf.data (buf.height - 1 - col) row) ∧
    ∀ row, (finalizeBuf true buf).data row (buf.height - 1) = buf.data 0 row := by
  refine ⟨rfl, rfl, rfl, fun row col _ => rfl, fun row => ?_⟩
  show buf.data (buf.height - 1 - (buf.height - 1)) row = buf.data 0 row
  rw [Nat.sub_self]

/-- Witness for C8 on a concrete 2 x 3 buffer. -/
theorem finalize_flip_rotation_witness :
    (finalizeBuf true (zerosBuffer 2 3)).height = 3 ∧
    (finalizeBuf true (zerosBuffer 2 3)).width = 2 :=
  ⟨(finalize_flip_rotation (zerosBuffer 2 3) (by decide)).2.1,
   (finalize_flip_rotation (zerosBuffer 2 3) (by decide)).2.2.1⟩

/-- C3: the loop can sample one more frame than there are allocated bars
(N = 25 with I = 24 allocates one bar but samples frames 0 and 24), and the
resulting out-of-range slice assignment is a silent no-op when T = 1 but a
broadcast error for every T >= 2. -/
theorem overflow_section_write :
    (init 25 1 1 24 = .ok (zerosBuffer 1 1) ∧ (sampledIndices 25).length = 2) ∧
    (∀ buf i c, buf.width ≤ i * 1 → assignSection buf 1 i c = .ok buf) ∧
    (∀ buf T i c, 2 ≤ T → buf.width ≤ i * T →
      assignSection buf T i c = .error "could not broadcast") := by
  refine ⟨⟨rfl, by decide⟩, ?_, ?_⟩
  · intro buf i c hW
    rw [assignSection_one]
    congr 1
    unfold writeBarFn
    have hd : (fun row col =>
        if row < buf.height ∧ min (i * 1) buf.width ≤ col ∧ col < min (i * 1 + 1) buf.width
        then c else buf.data row col) = buf.data := by
      funext row col
      rw [if_neg]
      rintro ⟨-, h1, h2⟩
      omega
    rw [hd]
  · intro buf T i c hT hW
    have hcond : ¬(T = min (i * T + T) buf.width - min (i * T) buf.width ∨ T = 1) := by
      generalize i * T = A at hW ⊢
      rintro (h | h) <;> omega
    unfold assignSection
    rw [if_neg hcond]

/-- Witness for C3: a concrete silent no-op (T = 1) and a concrete broadcast
error (T = 2). -/
theorem overflow_section_write_witness :
    assignSection (zerosBuffer 1 1) 1 1 Color.zero = .ok (zerosBuffer 1 1) ∧
    assignSection (zerosBuffer 1 2) 2 1 Color.zero = .error "could not broadcast" :=
  ⟨overflow_section_write.2.1 (zerosBuffer 1 1) 1 Color.zero (by decide),
   overflow_section_write.2.2 (zerosBuffer 1 2) 2 1 Color.zero (by decide) (by decide)⟩

/-- C6: writing bar i with 0 <= i < B on a buffer of width B * T succeeds,
fills exactly rows [0, S) x columns [i*T, i*T + T) with the constant color c,
leaves every element outside those columns unchanged, and writing the same
index a second time overwrites the first write with no accumulation. -/
theorem writeBar_fills_section (buf : Buffer) (B T i : ℕ) (c : Color)
    (hW : buf.width = B * T) (hi : i < B) (hT : 1 ≤ T) :
    assignSection buf T i c = .ok (writeBarFn buf T i c) ∧
    (∀ row col, row < buf.height → i * T ≤ col → col < i * T + T →
      (writeBarFn buf T i c).data row col = c) ∧
    (∀ row col, ¬(i * T ≤ col ∧ col < i * T + T) →
      (writeBarFn buf T i c).data row col = buf.data row col) ∧
    ∀ c2 row col, (writeBarFn (writeBarFn buf T i c) T i c2).data row col =
      (writeBarFn buf T i c2).data row col := by
  have hbound : i * T + T ≤ buf.width := by
    rw [hW, ← Nat.succ_mul]
    exact mul_le_mul_right' hi T
  have e1 : min (i * T) buf.width = i * T :=
    Nat.min_eq_left (le_trans (Nat.le_add_right _ T) hbound)
  have e2 : min (i * T + T) buf.width = i * T + T := Nat.min_eq_left hbound
  refine ⟨?_, ?_, ?_, ?_⟩
  · unfold assignSection
    rw [e1, e2, if_pos (Or.inl (Nat.add_sub_cancel_left (i * T) T).symm)]
  · intro row col hr h1 h2
    simp only [writeBarFn]
    rw [e1, e2]
    exact if_pos ⟨hr, h1, h2⟩
  · intro row col hno
    simp only [writeBarFn]
    rw [e1, e2, if_neg (by rintro ⟨-, a, b⟩; exact hno ⟨a, b⟩)]
  · intro c2 row col
    simp only [writeBarFn]
    by_cases h2 : row < buf.height ∧ min (i * T) buf.width ≤ col ∧
        col < min (i * T + T) buf.width
    · rw [if_pos h2, if_pos h2]
    · rw [if_neg h2, if_neg h2, if_neg h2]

/-- Witness for C6: bar 1 of thickness 2 on a 2 x 4 buffer. -/
theorem writeBar_fills_section_witness :
    (writeBarFn (zerosBuffer 2 4) 2 1 ⟨9, 9, 9⟩).data 0 2 = ⟨9, 9, 9⟩ ∧
    (writeBarFn (zerosBuffer 2 4) 2 1 ⟨9, 9, 9⟩).data 0 1 = Color.zero :=
  ⟨(writeBar_fills_section (zerosBuffer 2 4) 2 2 1 ⟨9, 9, 9⟩ rfl (by decide)
      (by decide)).2.1 0 2 (by decide) (by decide) (by decide),
   (writeBar_fills_section (zerosBuffer 2 4) 2 2 1 ⟨9, 9, 9⟩ rfl (by decide)
      (by decide)).2.2.1 0 1 (by decide)⟩

/-- C1 (code bug): the sampling guard on line 67 uses the hardcoded constant
24, not the configured interval. With I = 2 and N = 4 one-pixel frames of
color (8, 8, 8) all delivered, the constructor allocates floor(4/2) = 2 bars,
but only frame 0 is sampled (0 mod 24 = 0; 2 mod 24 differs from 0), so
bar 1 stays zero instead of holding frame 2's mean color. -/
theorem sampling_ignores_interval :
    sampledIndices 4 = [0] ∧
    init 4 1 1 2 = .ok (zerosBuffer 1 2) ∧
    ∃ buf2, runLoop (framesConst 4 ⟨8, 8, 8⟩) 1 4 (zerosBuffer 1 2) 0 0 = .ok buf2 ∧
      buf2.data 0 0 = ⟨8, 8, 8⟩ ∧ buf2.data 0 1 = Color.zero := by
  refine ⟨by decide, rfl, _, runLoop_one_char (framesConst 4 ⟨8, 8, 8⟩) 4 0 0
    (zerosBuffer 1 2) rfl, ?_, ?_⟩
  · show loopSpecData (framesConst 4 ⟨8, 8, 8⟩) (zerosBuffer 1 2) 0 4 0 0 = _
    unfold loopSpecData
    rw [if_pos ⟨by decide, by decide, by decide, by decide, by decide⟩]
    show meanColor ((framesConst 4 ⟨8, 8, 8⟩).getD 0 []) = _
    rw [show (framesConst 4 (⟨8, 8, 8⟩ : Color)).getD 0 [] = uniformFrame 1 1 ⟨8, 8, 8⟩ from rfl]
    exact meanColor_uniform 1 1 (by decide) (by decide) ⟨8, 8, 8⟩
  · show loopSpecData (framesConst 4 ⟨8, 8, 8⟩) (zerosBuffer 1 2) 0 4 0 1 = _
    unfold loopSpecData
    rw [if_neg (by rintro ⟨-, -, -, a, -⟩; omega)]
    rfl

/-- C4 counterexample: with N = 100 and interval 24 the loop also samples
frame 96 (96 mod 24 = 0 and 96 < 100), so the set of sampled frame indices
is not {0, 24, 48, 72} as claimed. -/
theorem scenario_sampled_set_counterexample :
    sampledIndices 100 = [0, 24, 48, 72, 96] ∧ 96 ∈ sampledIndices 100 ∧
      96 ∉ ([0, 24, 48, 72] : List ℕ) :=
  ⟨by decide, by decide, by decide⟩

/-- C4 (amended): in the N = 100, I = 24, T = 1, S = 10 scenario the bar
count is 4 and the buffer shape (10, 4, 3); the sampled frames are
{0, 24, 48, 72, 96}, where frame 96's write targets bar index 4 beyond the
buffer and (T = 1) silently leaves it unchanged; if frame 24 is a uniform
frame of color (200, 100, 50), every row of column 1 of the final buffer
holds (200, 100, 50). -/
theorem scenario_n100 (frames : List Frame) (h w : ℕ) (hh : 1 ≤ h) (hw : 1 ≤ w)
    (hlen : frames.length = 100)
    (h24 : frames.getD 24 [] = uniformFrame h w ⟨200, 100, 50⟩) :
    init 100 10 1 24 = .ok (zerosBuffer 10 4) ∧
    sampledIndices 100 = [0, 24, 48, 72, 96] ∧
    ∃ buf2, runLoop frames 1 100 (zerosBuffer 10 4) 0 0 = .ok buf2 ∧
      buf2.height = 10 ∧ buf2.width = 4 ∧
      ∀ row, row < 10 → buf2.data row 1 = ⟨200, 100, 50⟩ := by
  refine ⟨rfl, by decide, _, runLoop_one_char frames 100 0 0 (zerosBuffer 10 4) rfl,
    rfl, rfl, ?_⟩
  intro row hrow
  show loopSpecData frames (zerosBuffer 10 4) 0 100 row 1 = _
  unfold loopSpecData
  rw [if_pos ⟨hrow, by decide, by decide, by decide, by omega⟩]
  show meanColor (frames.getD 24 []) = _
  rw [h24]
  exact meanColor_uniform h w hh hw ⟨200, 100, 50⟩

/-- Witness for the amended C4: 100 one-pixel frames with frame 24 of color
(200, 100, 50). -/
theorem scenario_n100_witness :
    init 100 10 1 24 = .ok (zerosBuffer 10 4) ∧
    sampledIndices 100 = [0, 24, 48, 72, 96] ∧
    ∃ buf2, runLoop framesScenario 1 100 (zerosBuffer 10 4) 0 0 = .ok buf2 ∧
      buf2.height = 10 ∧ buf2.width = 4 ∧
      ∀ row, row < 10 → buf2.data row 1 = ⟨200, 100, 50⟩ :=
  scenario_n100 framesScenario 1 1 (by decide) (by decide) (by decide) (by decide)

/-- C7 counterexample: N = 48 declared frames, interval 24, T = 1, S = 1,
and the source stops after k = 25 frames of uniform color (5, 5, 5). The
claim says every bar with index at least floor(25/24) = 1 stays zero, but
frame 24 was read and sampled before the stop, so bar 1 holds (5, 5, 5). -/
theorem early_stop_counterexample :
    init 48 1 1 24 = .ok (zerosBuffer 1 2) ∧
    (framesConst 25 ⟨5, 5, 5⟩).length = 25 ∧ (25 : ℕ) / 24 = 1 ∧
    ((runLoop (framesConst 25 ⟨5, 5, 5⟩) 1 48 (zerosBuffer 1 2) 0 0).map
      (fun b => b.data 0 1)) = .ok ⟨5, 5, 5⟩ ∧
    (⟨5, 5, 5⟩ : Color) ≠ Color.zero := by
  refine ⟨rfl, by decide, by decide, ?_, by decide⟩
  rw [runLoop_one_char (framesConst 25 ⟨5, 5, 5⟩) 48 0 0 (zerosBuffer 1 2) rfl]
  show Except.ok (loopSpecData (framesConst 25 ⟨5, 5, 5⟩) (zerosBuffer 1 2) 0 48 0 1) = _
  congr 1
  unfold loopSpecData
  rw [if_pos ⟨by decide, by decide, by decide, by decide, by decide⟩]
  show meanColor ((framesConst 25 ⟨5, 5, 5⟩).getD 24 []) = _
  rw [show (framesConst 25 (⟨5, 5, 5⟩ : Color)).getD 24 [] = uniformFrame 1 1 ⟨5, 5, 5⟩
    from rfl]
  exact meanColor_uniform 1 1 (by decide) (by decide) ⟨5, 5, 5⟩

/-- C7 (amended): if the source delivers only k < N frames, the loop (with
T = 1 as in the default configuration) stops at the failed read without any
error; every bar it wrote before stopping holds the mean color of its
sampled frame (bar col comes from frame 24 * col, sampling being at the
hardcoded interval 24), and every bar with index at least ceil(k/24) is
still zero. The original bound floor(k/I) fails: bar floor(k/24) is written
whenever k mod 24 is nonzero, and the interval is 24 regardless of I. -/
theorem early_stop_partial (frames : List Frame) (N S W k : ℕ) (hk : frames.length = k)
    (hkN : k < N) :
    ∃ buf2, runLoop frames 1 N (zerosBuffer S W) 0 0 = .ok buf2 ∧
      buf2.height = S ∧ buf2.width = W ∧
      (∀ row col, (k + 23) / 24 ≤ col → buf2.data row col = Color.zero) ∧
      (∀ row col, row < S → col < W → 24 * col < k →
        buf2.data row col = meanColor (frames.getD (24 * col) [])) := by
  refine ⟨_, runLoop_one_char frames N 0 0 (zerosBuffer S W) rfl, rfl, rfl, ?_, ?_⟩
  · intro row col hcol
    show loopSpecData frames (zerosBuffer S W) 0 N row col = _
    unfold loopSpecData
    rw [if_neg (by rintro ⟨-, -, -, -, b⟩; omega)]
    rfl
  · intro row col hrow hcolW hcolk
    show loopSpecData frames (zerosBuffer S W) 0 N row col = _
    unfold loopSpecData
    rw [if_pos ⟨hrow, hcolW, by omega, by omega, by omega⟩]

/-- Witness for the amended C7: 25 delivered frames out of 48 declared. -/
theorem early_stop_partial_witness :
    ∃ buf2, runLoop (framesConst 25 ⟨5, 5, 5⟩) 1 48 (zerosBuffer 1 2) 0 0 = .ok buf2 ∧
      buf2.height = 1 ∧ buf2.width = 2 ∧
      (∀ row col, (25 + 23) / 24 ≤ col → buf2.data row col = Color.zero) ∧
      (∀ row col, row < 1 → col < 2 → 24 * col < 25 →
        buf2.data row col = meanColor ((framesConst 25 ⟨5, 5, 5⟩).getD (24 * col) [])) :=
  early_stop_partial (framesConst 25 ⟨5, 5, 5⟩) 48 1 2 25 (by decide) (by decide)

end ColorMapMaker
